import Mathlib

/-!
Verification of the delivery pipeline of `email_sender.py`
(repository `antares2881/outlook-email-sender`).

The Python source is shallowly embedded below:

* Python `str.replace` is `pyReplace` (lists of characters, leftmost,
  non-overlapping scan; the replacement text is not rescanned);
* `EmailSender._render_template` is `render_template` (returning both the
  rendered string and the mutated field dictionary, since the Python code
  mutates its `data` argument);
* the PDF-generation `try` block of `send_bulk_emails` is `pdfStep`;
* `EmailSender.send_email` is `send_email` over an explicit model of the
  Python exception flow;
* the retry loop of `send_bulk_emails` is `retryList`;
* the body of the per-recipient loop is `processOne`, and
  `send_bulk_emails` folds it over the recipient rows (`bulkGo`).

Dictionaries are embedded as insertion-ordered association lists, which is
exactly the iteration-order semantics of Python dicts.  Field values from
the spreadsheet are `Option String` (`none` models a NaN cell); byte
strings are `List Nat`.  Wall-clock sleeps are recorded as events carrying
their duration (a rational number of seconds).  Timestamps and log lines
are not modelled.
-/

/-- The character `{` (written by code point to keep braces out of string
literals). -/
def obr : Char := Char.ofNat 123

/-- The character `}` (written by code point). -/
def cbr : Char := Char.ofNat 125

/-- Bounded scanner underlying `pyReplace`, for a non-empty pattern: at each
position, if the pattern is a prefix of the remaining input, emit the
replacement and continue after the matched region; otherwise emit the head
character.  `fuel` only makes the recursion structural; it is set to the
input length, which is enough because each step consumes at least one
input character. -/
def replGo (pat rep : List Char) : Nat → List Char → List Char
  | 0, s => s
  | _ + 1, [] => []
  | f + 1, c :: t =>
    if pat.isPrefixOf (c :: t) then rep ++ replGo pat rep f (List.drop (pat.length - 1) t)
    else c :: replGo pat rep f t

/-- Python `s.replace(pat, rep)` on lists of characters.  For an empty
pattern Python interleaves the replacement around every character
(`"ab".replace("", "-") == "-a-b-"`); every call site in the embedded
program uses a non-empty literal pattern. -/
def replList (pat rep s : List Char) : List Char :=
  if pat.isEmpty then rep ++ s.foldr (fun c acc => c :: rep ++ acc) []
  else replGo pat rep s.length s

/-- Python `s.replace(pat, rep)` on strings. -/
def pyReplace (s pat rep : String) : String :=
  ⟨replList pat.data rep.data s.data⟩

theorem replGo_fuelEq (pat rep : List Char) :
    ∀ f₁ f₂ s, s.length ≤ f₁ → s.length ≤ f₂ →
      replGo pat rep f₁ s = replGo pat rep f₂ s := by
  intro f₁
  induction f₁ with
  | zero =>
    intro f₂ s h₁ _
    have hs : s = [] := List.length_eq_zero.mp (Nat.le_zero.mp h₁)
    subst hs
    cases f₂ <;> rfl
  | succ f₁ ih =>
    intro f₂ s h₁ h₂
    cases s with
    | nil => cases f₂ <;> rfl
    | cons c t =>
      cases f₂ with
      | zero => exact absurd h₂ (by simp)
      | succ f₂ =>
        have ht₁ : t.length ≤ f₁ := by simpa using h₁
        have ht₂ : t.length ≤ f₂ := by simpa using h₂
        by_cases hp : pat.isPrefixOf (c :: t)
        · have hd : (List.drop (pat.length - 1) t).length ≤ t.length := by
            simp [List.length_drop]
          simp only [replGo, hp, if_true]
          rw [ih f₂ _ (le_trans hd ht₁) (le_trans hd ht₂)]
        · simp only [replGo]
          rw [if_neg hp, if_neg hp, ih f₂ t ht₁ ht₂]

theorem replList_nil (pat rep : List Char) (h : pat ≠ []) :
    replList pat rep [] = [] := by
  have hne : ¬ pat.isEmpty = true := by
    simpa [List.isEmpty_iff] using h
  unfold replList
  rw [if_neg hne]
  rfl

theorem replList_cons_nomatch (pat rep : List Char) (c : Char) (t : List Char)
    (h : ¬ pat.isPrefixOf (c :: t)) :
    replList pat rep (c :: t) = c :: replList pat rep t := by
  have hne : ¬ pat.isEmpty = true := by
    intro he
    exact h (by simp [List.isEmpty_iff.mp he, List.isPrefixOf])
  unfold replList
  rw [if_neg hne, if_neg hne]
  show replGo pat rep (t.length + 1) (c :: t) = c :: replGo pat rep t.length t
  simp only [replGo]
  rw [if_neg h]

theorem replList_matched (pat rep s : List Char) (h : pat ≠ []) :
    replList pat rep (pat ++ s) = rep ++ replList pat rep s := by
  cases pat with
  | nil => exact absurd rfl h
  | cons p pt =>
    have hne : ¬ (p :: pt).isEmpty = true := by simp
    have hpre : (p :: pt).isPrefixOf (p :: (pt ++ s)) := by
      exact List.isPrefixOf_iff_prefix.mpr (List.prefix_append _ _)
    unfold replList
    rw [if_neg hne, if_neg hne]
    show replGo (p :: pt) rep ((pt ++ s).length + 1) (p :: (pt ++ s))
        = rep ++ replGo (p :: pt) rep s.length s
    simp only [replGo, hpre, if_true]
    have hdrop : List.drop ((p :: pt).length - 1) (pt ++ s) = s := by
      simp [List.drop_left]
    simp only [List.length_cons] at hdrop ⊢
    rw [hdrop]
    congr 1
    exact replGo_fuelEq _ _ _ _ _ (by simp [List.length_append]) (le_refl _)

theorem replList_skip_chars (pt rep : List Char) (l s : List Char)
    (hl : ∀ c ∈ l, c ≠ obr) :
    replList (obr :: pt) rep (l ++ s) = l ++ replList (obr :: pt) rep s := by
  induction l with
  | nil => rfl
  | cons c l ih =>
    have hc : c ≠ obr := hl c (by simp)
    have hnm : ¬ (obr :: pt).isPrefixOf (c :: (l ++ s)) := by
      simp [List.isPrefixOf]
      intro he
      exact absurd he.symm hc
    rw [List.cons_append, replList_cons_nomatch _ _ _ _ hnm,
      ih (fun c hc' => hl c (by simp [hc']))]
    simp

theorem replList_no_obr (pt rep : List Char) (s : List Char)
    (hs : ∀ c ∈ s, c ≠ obr) :
    replList (obr :: pt) rep s = s := by
  have := replList_skip_chars pt rep s [] hs
  simpa [replList_nil] using this

theorem replList_single (a b : Char) (s : List Char) :
    replList [a] [b] s = s.map (fun c => if c = a then b else c) := by
  induction s with
  | nil => exact replList_nil _ _ (by simp)
  | cons c t ih =>
    by_cases hc : c = a
    · subst hc
      have : [c] ++ t = c :: t := rfl
      rw [← this, replList_matched _ _ _ (by simp), ih]
      simp
    · have hnm : ¬ [a].isPrefixOf (c :: t) := by
        simp [List.isPrefixOf]
        intro he
        exact absurd he.symm hc
      rw [replList_cons_nomatch _ _ _ _ hnm, ih]
      simp [hc]

example : pyReplace "aaa" "aa" "b" = "ba" := by decide
example : pyReplace "Hello" "l" "L" = "HeLLo" := by decide

/-- The placeholder text for a key: two opening braces, the key, two closing
braces (line 185 of `email_sender.py`). -/
def phChars (k : String) : List Char :=
  obr :: obr :: (k.data ++ [cbr, cbr])

/-- Python dict assignment `d[k] = v`: if the key is present its value is
updated in place (keeping its position in insertion order), otherwise the
binding is appended at the end. -/
def dictSet (d : List (String × String)) (k v : String) : List (String × String) :=
  if (d.map Prod.fst).contains k then
    d.map (fun p => if p.1 = k then (k, v) else p)
  else d ++ [(k, v)]

/-- The substitution loop of `_render_template` (lines 184-186): for each
binding, in dictionary iteration order, replace every occurrence of the
binding's placeholder by its value. -/
def foldRepl (d : List (String × String)) (s : List Char) : List Char :=
  d.foldl (fun acc kv => replList (phChars kv.1) kv.2.data acc) s

/-- String-level wrapper of `foldRepl`. -/
def renderFold (d : List (String × String)) (t : String) : String :=
  ⟨foldRepl d t.data⟩

/-- `EmailSender._render_template` (lines 167-188).  It first executes
`data['from_name'] = self.config['email']['from_name']`, mutating the
caller's dictionary, then runs the substitution loop.  The mutated
dictionary is returned alongside the rendered string, because the mutation
is visible to the caller in Python.  (`str(value)` is the identity here:
field values are embedded as strings.) -/
def render_template (from_name template : String)
    (data : List (String × String)) : String × List (String × String) :=
  let d := dictSet data "from_name" from_name
  (renderFold d template, d)

/-- A character list containing neither brace. -/
def braceFree (l : List Char) : Prop := ∀ c ∈ l, c ≠ obr ∧ c ≠ cbr

instance braceFree_decidable (l : List Char) : Decidable (braceFree l) := by
  unfold braceFree
  infer_instance

/-- A template decomposed into literal segments and placeholders; used to
state which templates make the substitution loop order-independent. -/
inductive Tok where
  | lit : String → Tok
  | phd : String → Tok
deriving DecidableEq

/-- The text of one template token. -/
def flatTok : Tok → List Char
  | .lit s => s.data
  | .phd k => phChars k

/-- The text of a token list. -/
def flatToks : List Tok → List Char
  | [] => []
  | t :: ts => flatTok t ++ flatToks ts

/-- Well-formed token: its literal text, or its key, contains no brace. -/
def tokBF : Tok → Prop
  | .lit s => braceFree s.data
  | .phd k => braceFree k.data

/-- Substituting value `v` for key `k` on one token. -/
def substTok (k v : String) : Tok → Tok
  | .lit s => .lit s
  | .phd k' => if k' = k then .lit v else .phd k'

theorem key_no_cross (k k' t : List Char) (hk : braceFree k) (hk' : braceFree k')
    (hne : k ≠ k') : ¬ (k ++ [cbr, cbr]) <+: (k' ++ ([cbr, cbr] ++ t)) := by
  induction k generalizing k' with
  | nil =>
    cases k' with
    | nil => exact absurd rfl hne
    | cons b k₂ =>
      intro hp
      have hb : cbr = b := by
        have h := (List.cons_prefix_cons.mp (by simpa using hp)).1
        exact h
      exact (hk' b (by simp)).2 hb.symm
  | cons a k₂ ih =>
    cases k' with
    | nil =>
      intro hp
      have ha : a = cbr := (List.cons_prefix_cons.mp (by simpa using hp)).1
      exact (hk a (by simp)).2 ha
    | cons b k₂' =>
      intro hp
      have h := List.cons_prefix_cons.mp (by simpa using hp)
      have hab : a = b := h.1
      have hne' : k₂ ≠ k₂' := by
        intro he
        exact hne (by rw [hab, he])
      exact ih k₂' (fun c hc => hk c (by simp [hc]))
        (fun c hc => hk' c (by simp [hc])) hne' (by simpa using h.2)

theorem phChars_ne_nil (k : String) : phChars k ≠ [] := by
  simp [phChars]

theorem tokBF_substTok (k v : String) (hv : braceFree v.data) (tok : Tok)
    (h : tokBF tok) : tokBF (substTok k v tok) := by
  cases tok with
  | lit s => exact h
  | phd k' =>
    by_cases hkk : k' = k
    · simpa [substTok, hkk, tokBF] using hv
    · simpa [substTok, hkk, tokBF] using h

theorem subst_one (k v : String) (ts : List Tok)
    (hwf : ∀ tok ∈ ts, tokBF tok) (hk : braceFree k.data) :
    replList (phChars k) v.data (flatToks ts)
      = flatToks (ts.map (substTok k v)) := by
  induction ts with
  | nil => simpa [flatToks] using replList_nil (phChars k) v.data (phChars_ne_nil k)
  | cons tok rest ih =>
    have hwfr : ∀ t ∈ rest, tokBF t := fun t ht => hwf t (by simp [ht])
    cases tok with
    | lit s =>
      have hbf : braceFree s.data := hwf (Tok.lit s) (by simp)
      have h1 : replList (phChars k) v.data (s.data ++ flatToks rest)
          = s.data ++ replList (phChars k) v.data (flatToks rest) :=
        replList_skip_chars (obr :: (k.data ++ [cbr, cbr])) v.data s.data
          (flatToks rest) (fun c hc => (hbf c hc).1)
      show replList (phChars k) v.data (s.data ++ flatToks rest)
          = s.data ++ flatToks (rest.map (substTok k v))
      rw [h1, ih hwfr]
    | phd k' =>
      have hk' : braceFree k'.data := hwf (Tok.phd k') (by simp)
      by_cases hkk : k' = k
      · subst hkk
        have hsub : substTok k' v (Tok.phd k') = Tok.lit v := by
          simp [substTok]
        have h1 : replList (phChars k') v.data (phChars k' ++ flatToks rest)
            = v.data ++ replList (phChars k') v.data (flatToks rest) :=
          replList_matched _ _ _ (phChars_ne_nil k')
        show replList (phChars k') v.data (phChars k' ++ flatToks rest)
            = flatToks ((Tok.phd k' :: rest).map (substTok k' v))
        rw [List.map_cons, hsub, h1, ih hwfr]
        rfl
      · have hdne : k.data ≠ k'.data := by
          intro he
          apply hkk
          cases k with
          | mk l1 =>
            cases k' with
            | mk l2 => exact congrArg String.mk (by simpa using he.symm)
        have hnm0 : ¬ (phChars k).isPrefixOf
            (obr :: obr :: ((k'.data ++ [cbr, cbr]) ++ flatToks rest)) := by
          intro hpre
          have hpre' : (k.data ++ [cbr, cbr]) <+:
              (k'.data ++ ([cbr, cbr] ++ flatToks rest)) := by
            have := List.isPrefixOf_iff_prefix.mp hpre
            simpa [phChars, List.cons_prefix_cons, List.append_assoc] using this
          exact key_no_cross k.data k'.data (flatToks rest) hk hk' hdne hpre'
        have hnm1 : ¬ (phChars k).isPrefixOf
            (obr :: ((k'.data ++ [cbr, cbr]) ++ flatToks rest)) := by
          intro hpre
          have hpre' := List.isPrefixOf_iff_prefix.mp hpre
          rw [phChars] at hpre'
          have h2 := (List.cons_prefix_cons.mp hpre').2
          cases hk2 : k'.data with
          | nil =>
            rw [hk2] at h2
            have : obr = cbr := (List.cons_prefix_cons.mp (by simpa using h2)).1
            exact absurd this (by decide)
          | cons c k₂ =>
            rw [hk2] at h2
            have : obr = c := (List.cons_prefix_cons.mp (by simpa using h2)).1
            exact (hk' c (by simp [hk2])).1 this.symm
        have hskip : replList (phChars k) v.data
            ((k'.data ++ [cbr, cbr]) ++ flatToks rest)
            = (k'.data ++ [cbr, cbr]) ++ replList (phChars k) v.data (flatToks rest) :=
          replList_skip_chars (obr :: (k.data ++ [cbr, cbr])) v.data _ _
            (by
              intro c hc
              rcases List.mem_append.mp hc with hm | hm
              · exact (hk' c hm).1
              · have hcv : c = cbr := by simpa using hm
                rw [hcv]
                decide)
        show replList (phChars k) v.data
            (obr :: obr :: ((k'.data ++ [cbr, cbr]) ++ flatToks rest))
            = flatToks ((Tok.phd k' :: rest).map (substTok k v))
        rw [replList_cons_nomatch _ _ _ _ hnm0, replList_cons_nomatch _ _ _ _ hnm1]
        rw [hskip, ih hwfr]
        simp [substTok, hkk, flatToks, flatTok, phChars]

/-- Iterated per-token substitution, one binding at a time in dictionary
order. -/
def substFold (d : List (String × String)) (tok : Tok) : Tok :=
  d.foldl (fun tk kv => substTok kv.1 kv.2 tk) tok

theorem substFold_lit (d : List (String × String)) (s : String) :
    substFold d (Tok.lit s) = Tok.lit s := by
  induction d with
  | nil => rfl
  | cons kv d ih => simpa [substFold, substTok] using ih

theorem substFold_phd (d : List (String × String)) (k0 : String) :
    substFold d (Tok.phd k0)
      = (match List.lookup k0 d with
         | some v => Tok.lit v
         | none => Tok.phd k0) := by
  induction d with
  | nil => rfl
  | cons kv d ih =>
    obtain ⟨k, v⟩ := kv
    by_cases h : k0 = k
    · subst h
      have h1 : substTok k0 v (Tok.phd k0) = Tok.lit v := by simp [substTok]
      show substFold d (substTok k0 v (Tok.phd k0)) = _
      rw [h1, substFold_lit]
      simp [List.lookup]
    · have h1 : substTok k v (Tok.phd k0) = Tok.phd k0 := by simp [substTok, h]
      have hbe : (k0 == k) = false := by simp [h]
      show substFold d (substTok k v (Tok.phd k0)) = _
      rw [h1, ih]
      show _ = (match (match k0 == k with
          | true => some v
          | false => List.lookup k0 d) with
        | some v => Tok.lit v
        | none => Tok.phd k0)
      rw [hbe]

theorem foldRepl_toks (d : List (String × String)) (ts : List Tok)
    (hwf : ∀ tok ∈ ts, tokBF tok)
    (hd : ∀ kv ∈ d, braceFree kv.1.data ∧ braceFree kv.2.data) :
    foldRepl d (flatToks ts)
      = flatToks (d.foldl (fun ts' kv => ts'.map (substTok kv.1 kv.2)) ts) := by
  induction d generalizing ts with
  | nil => rfl
  | cons kv d ih =>
    have hk : braceFree kv.1.data := (hd kv (by simp)).1
    have hv : braceFree kv.2.data := (hd kv (by simp)).2
    have hstep : replList (phChars kv.1) kv.2.data (flatToks ts)
        = flatToks (ts.map (substTok kv.1 kv.2)) := subst_one kv.1 kv.2 ts hwf hk
    show foldRepl d (replList (phChars kv.1) kv.2.data (flatToks ts)) = _
    rw [hstep]
    exact ih (ts.map (substTok kv.1 kv.2))
      (by
        intro tok htok
        rcases List.mem_map.mp htok with ⟨tok', htok', rfl⟩
        exact tokBF_substTok kv.1 kv.2 hv tok' (hwf tok' htok'))
      (fun kv' hkv' => hd kv' (by simp [hkv']))

theorem foldl_map_comm (d : List (String × String)) (ts : List Tok) :
    d.foldl (fun ts' kv => ts'.map (substTok kv.1 kv.2)) ts
      = ts.map (substFold d) := by
  induction d generalizing ts with
  | nil =>
    have h : List.map (substFold []) ts = List.map id ts :=
      List.map_congr_left (fun tok _ => rfl)
    rw [h, List.map_id]
    rfl
  | cons kv d ih =>
    show d.foldl _ (ts.map (substTok kv.1 kv.2)) = _
    rw [ih, List.map_map]
    rfl

theorem lookup_perm_nodup (a : String) {d₁ d₂ : List (String × String)}
    (h : d₁.Perm d₂) :
    (d₁.map Prod.fst).Nodup → List.lookup a d₁ = List.lookup a d₂ := by
  induction h with
  | nil => intro _; rfl
  | cons x h ih =>
    intro hn
    obtain ⟨k, v⟩ := x
    by_cases hak : a == k
    · simp [List.lookup, hak]
    · simp only [Bool.not_eq_true] at hak
      simp [List.lookup, hak]
      exact ih (by simpa using (List.nodup_cons.mp (by simpa using hn)).2)
  | swap x y l =>
    intro hn
    obtain ⟨k₁, v₁⟩ := x
    obtain ⟨k₂, v₂⟩ := y
    simp only [List.map_cons] at hn
    have hne : k₂ ≠ k₁ := by
      have h1 := (List.nodup_cons.mp hn).1
      intro he
      exact h1 (by simp [he])
    cases h1 : a == k₁ <;> cases h2 : a == k₂
    · simp [List.lookup, h1, h2]
    · simp [List.lookup, h1, h2]
    · simp [List.lookup, h1, h2]
    · exact absurd ((eq_of_beq h2).symm.trans (eq_of_beq h1)) hne
  | trans h₁ h₂ ih₁ ih₂ =>
    intro hn
    rw [ih₁ hn, ih₂ ((h₁.map Prod.fst).nodup_iff.mp hn)]

/-- Character class `[a-zA-Z0-9._%+\-]` of the local part of the address
pattern at line 157. -/
def localChar (c : Char) : Bool :=
  c.isAlpha || c.isDigit || c = '.' || c = '_' || c = '%' || c = '+' || c = '-'

/-- Character class `[a-zA-Z0-9.\-]` of the domain part. -/
def domainChar (c : Char) : Bool :=
  c.isAlpha || c.isDigit || c = '.' || c = '-'

/-- The anchored address pattern of lines 157-158:
local `[a-zA-Z0-9._%+\-]+`, then `@`, then `[a-zA-Z0-9.\-]+`, then a dot,
then `[a-zA-Z]{2,}` up to the end.  The split of the domain is forced to
sit at its last dot, because the trailing run admits no dot; the local
part must end at the first `@`, because its class admits no `@`. -/
def emailValid (s : String) : Bool :=
  let cs := s.data
  let loc := cs.takeWhile (fun c => c ≠ '@')
  match cs.dropWhile (fun c => c ≠ '@') with
  | [] => false
  | _ :: dom =>
    let revDom := dom.reverse
    let tldRev := revDom.takeWhile (fun c => c ≠ '.')
    match revDom.dropWhile (fun c => c ≠ '.') with
    | [] => false
    | _ :: midRev =>
      !loc.isEmpty && loc.all localChar &&
        !midRev.isEmpty && midRev.reverse.all domainChar &&
        decide (2 ≤ tldRev.length) && tldRev.all (fun c => c.isAlpha)

example : emailValid "user@example.com" = true := by decide
example : emailValid "not-an-email" = false := by decide
example : emailValid "user@" = false := by decide
example : emailValid "user@domain" = false := by decide

/-- One spreadsheet row: its DataFrame index label (the `idx` yielded by
`iterrows()`) and its cells (`none` models a NaN cell). -/
structure Row where
  label : Nat
  fields : List (String × Option String)
deriving DecidableEq

/-- The validation filter of `load_excel` (lines 156-162): keep the rows
whose email cell matches the address pattern (`na=False`: a NaN cell never
matches).  pandas boolean filtering keeps the original index labels, so the
surviving rows keep their labels. -/
def load_excel_filter (rows : List Row) : List Row :=
  rows.filter (fun r =>
    match List.lookup "email" r.fields with
    | some (some s) => emailValid s
    | _ => false)

/-- Lines 282-283: `row.to_dict()` with NaN values mapped to `''`. -/
def normalizeRow (r : Row) : List (String × String) :=
  r.fields.map (fun kv => (kv.1, kv.2.getD ""))

/-- Line 289: `.replace('/', '_').replace('\\', '_').replace(':', '_')`. -/
def sanitizePdfName (s : String) : String :=
  pyReplace (pyReplace (pyReplace s "/" "_") "\\" "_") ":" "_"

/-- Line 290: like line 289, but with spaces replaced first. -/
def sanitizeNombre (s : String) : String :=
  pyReplace (pyReplace (pyReplace (pyReplace s " " "_") "/" "_") "\\" "_") ":" "_"

/-- Python `data.get(k, dflt)` on the embedded dictionary. -/
def dictGetD (d : List (String × String)) (k dflt : String) : String :=
  (List.lookup k d).getD dflt

/-- The PDF `try` block of `send_bulk_emails` (lines 286-295): request the
attachment bytes, then build the sanitized filename from
`data.get('nombre_pdf', 'documento')` and `data['nombre']`.  If the
generator fails - or the row has no `nombre` key, which would raise
`KeyError` at line 290 - the `except` arm is taken: no attachment bytes and
the literal filename `documento.pdf`. -/
def pdfStep (gen : List (String × String) → Except String (List Nat))
    (data : List (String × String)) : Option (List Nat) × String :=
  match gen data, List.lookup "nombre" data with
  | Except.ok b, some nom =>
    (some b, sanitizePdfName (dictGetD data "nombre_pdf" "documento") ++ "_"
      ++ sanitizeNombre nom ++ ".pdf")
  | _, _ => (none, "documento.pdf")

/-- The exceptions the `try` of `send_email` can surface:
`smtplib.SMTPAuthenticationError` (a subclass of `smtplib.SMTPException`),
any other `smtplib.SMTPException`, or any other exception; each carries its
rendered message `str(e)`. -/
inductive PyExc where
  | smtpAuth : String → PyExc
  | smtpOther : String → PyExc
  | nonSmtp : String → PyExc
deriving DecidableEq

/-- `str(e)` for an exception. -/
def excMsg : PyExc → String
  | .smtpAuth m => m
  | .smtpOther m => m
  | .nonSmtp m => m

/-- Membership in the class `smtplib.SMTPAuthenticationError`. -/
def isAuthExc : PyExc → Bool
  | .smtpAuth _ => true
  | _ => false

/-- Membership in the class `smtplib.SMTPException`; the authentication
error is a subclass, so it is included. -/
def isSmtpExc : PyExc → Bool
  | .smtpAuth _ => true
  | .smtpOther _ => true
  | .nonSmtp _ => false

/-- `EmailSender.send_email` (lines 190-256).  The body of the `try`
(compose the message, connect, STARTTLS, login, send, quit) is summarized
by its combined outcome `world`: `Except.ok ()` when every step succeeds,
`Except.error e` when some step raises `e`.  The except chain is ordered as
in the source: `SMTPAuthenticationError` first, `SMTPException` second,
bare `Exception` last; each handler returns `(False, message)`, the happy
path returns `(True, None)`.  The function is total: no exception
escapes. -/
def send_email (world : Except PyExc Unit) : Bool × Option String :=
  match world with
  | Except.ok _ => (true, none)
  | Except.error e =>
    if isAuthExc e then (false, some ("Error de autenticación: " ++ excMsg e))
    else if isSmtpExc e then (false, some ("Error SMTP: " ++ excMsg e))
    else (false, some ("Error inesperado: " ++ excMsg e))

/-- The spec's per-attempt outcome classification (spec section 4.2). -/
inductive ErrClass where
  | noError
  | authError
  | transportError
  | unexpectedError
deriving DecidableEq

/-- Which handler of the except chain catches an exception. -/
def classifyExc (e : PyExc) : ErrClass :=
  if isAuthExc e then ErrClass.authError
  else if isSmtpExc e then ErrClass.transportError
  else ErrClass.unexpectedError

/-- Result of the retry loop of lines 302-319. -/
structure RetryOut where
  success : Bool
  error : Option String
  sleeps : Nat
  attempts : Nat
deriving DecidableEq

/-- The loop `for attempt in range(max_retries)` (lines 306-319), applied
to the list of per-attempt `send_email` outcomes: stop at the first
success; after a failed attempt that is not the final one
(`attempt < max_retries - 1`) sleep once (`sleeps` counts those backoff
waits); `error` is the outcome of the last attempt performed; `attempts`
counts the `send_email` calls.  The empty list is `max_retries = 0`: the
loop body never runs, leaving `success = False` and `error_msg = None`. -/
def retryList : List (Bool × Option String) → RetryOut
  | [] => ⟨false, none, 0, 0⟩
  | [(s, e)] => ⟨s, e, 0, 1⟩
  | (s, e) :: x :: rest =>
    if s then ⟨true, e, 0, 1⟩
    else
      let r := retryList (x :: rest)
      ⟨r.success, r.error, r.sleeps + 1, r.attempts + 1⟩

/-- The run configuration as `send_bulk_emails` reads it:
`config['email']['from_name']`, `config['email']['subject']`, the loaded
e-mail template, `config['settings']['max_retries']`,
`config['settings']['delay_between_emails']`.  The field
`retry_backoff_seconds` carries the spec's `retryBackoffSeconds` entry of
the Run Configuration; the JSON file may well contain such a key, but the
code never reads it - the backoff at line 319 is the literal
`time.sleep(2)`. -/
structure Env where
  from_name : String
  subject : String
  email_template : String
  max_retries : Nat
  delay_between_emails : ℚ
  retry_backoff_seconds : ℚ

/-- A blocking wait performed by `send_bulk_emails`, with its duration in
seconds: a retry backoff (`time.sleep(2)`, line 319) or an inter-recipient
delay (`time.sleep(delay)`, line 339). -/
inductive Evt where
  | retryWait : ℚ → Evt
  | interWait : ℚ → Evt
deriving DecidableEq

/-- Arguments of one `send_email` call (lines 307-313). -/
structure SendCall where
  to_email : String
  subject : String
  html_body : String
  pdf_data : Option (List Nat)
  pdf_filename : String
deriving DecidableEq

/-- One entry of the results ledger (lines 322-328); the wall-clock
timestamp field is not modelled. -/
structure DeliveryResult where
  email : String
  nombre : String
  status : String
  error : Option String
deriving DecidableEq

/-- Everything one iteration of the per-recipient loop produces. -/
structure ProcOut where
  result : DeliveryResult
  sends : List SendCall
  retrySleeps : Nat
  attempts : Nat
  success : Bool
deriving DecidableEq

/-- The body of the per-recipient loop of `send_bulk_emails`
(lines 280-334): normalize the row, run the PDF block, render body then
subject - the subject render receives the dictionary as already mutated by
the body render - run the retry loop, and build the ledger entry.
`oracle n` is the outcome of this recipient's n-th `send_email` call
(0-based); every attempt passes the same arguments.  The ledger entry's
`error` is `error_msg if not success else ''`.  The dict accesses
`data['email']` and `data['nombre']` at lines 308 and 323-324 are embedded
with a default of `''`; `load_excel` guarantees both columns exist, and
both keys are distinct from the injected `from_name`. -/
def processOne (env : Env)
    (gen : List (String × String) → Except String (List Nat))
    (oracle : Nat → Bool × Option String) (row : Row) : ProcOut :=
  let data0 := normalizeRow row
  let pdf := pdfStep gen data0
  let r1 := render_template env.from_name env.email_template data0
  let r2 := render_template env.from_name env.subject r1.2
  let out := retryList ((List.range env.max_retries).map oracle)
  let email := dictGetD r2.2 "email" ""
  let nombre := dictGetD r2.2 "nombre" ""
  { result := { email := email, nombre := nombre,
                status := if out.success then "Éxito" else "Error",
                error := if out.success then some "" else out.error },
    sends := List.replicate out.attempts
      { to_email := email, subject := r2.1, html_body := r1.1,
        pdf_data := pdf.1, pdf_filename := pdf.2 },
    retrySleeps := out.sleeps,
    attempts := out.attempts,
    success := out.success }

/-- State threaded through the send loop: the ledger `self.results` (the
loop appends to whatever it already holds), both counters, and the wait
events in chronological order. -/
structure BulkState where
  results : List DeliveryResult
  success_count : Nat
  failed_count : Nat
  events : List Evt
deriving DecidableEq

/-- The loop `for idx, row in tqdm(df.iterrows(), ...)` (lines 280-339).
`pos` is the 0-based iteration position, used only to pick this recipient's
transport oracle; `idx` is `row.label`, the DataFrame index label, and the
inter-recipient delay of line 337 runs exactly when `idx < total - 1` -
the comparison is against the label, not the position. -/
def bulkGo (env : Env)
    (gen : List (String × String) → Except String (List Nat))
    (transport : Nat → Nat → Bool × Option String) (total : Nat) :
    Nat → List Row → BulkState → BulkState
  | _, [], st => st
  | pos, row :: rest, st =>
    let p := processOne env gen (transport pos) row
    bulkGo env gen transport total (pos + 1) rest
      { results := st.results ++ [p.result],
        success_count := st.success_count + (if p.success then 1 else 0),
        failed_count := st.failed_count + (if p.success then 0 else 1),
        events := st.events ++ List.replicate p.retrySleeps (Evt.retryWait 2)
          ++ (if row.label < total - 1 then
                [Evt.interWait env.delay_between_emails] else []) }

/-- The stats dictionary returned by `send_bulk_emails` (lines 341-345). -/
structure Stats where
  total : Nat
  success : Nat
  failed : Nat
deriving DecidableEq

/-- `EmailSender.send_bulk_emails` (lines 258-352): truncate to the first
row in preview mode (line 270), take `total = len(df)` after that, run the
per-recipient loop over the rows, and return the stats together with the
final state (ledger, counters, waits). -/
def send_bulk_emails (env : Env)
    (gen : List (String × String) → Except String (List Nat))
    (transport : Nat → Nat → Bool × Option String)
    (df : List Row) (preview_mode : Bool) (results0 : List DeliveryResult) :
    Stats × BulkState :=
  let proc := if preview_mode then df.take 1 else df
  let total := proc.length
  let st := bulkGo env gen transport total 0 proc ⟨results0, 0, 0, []⟩
  (⟨total, st.success_count, st.failed_count⟩, st)

/-- Number of inter-recipient waits in an event list. -/
def countInter (evts : List Evt) : Nat :=
  evts.countP (fun e => match e with | Evt.interWait _ => true | _ => false)

/-- Number of retry-backoff waits in an event list. -/
def countRetry (evts : List Evt) : Nat :=
  evts.countP (fun e => match e with | Evt.retryWait _ => true | _ => false)

theorem retryList_attempts_pos (L : List (Bool × Option String)) (h : L ≠ []) :
    1 ≤ (retryList L).attempts := by
  match L with
  | [(s, e)] => simp [retryList]
  | (s, e) :: x :: rest =>
    by_cases hs : s <;> simp [retryList, hs]

theorem retryList_all_fail :
    ∀ (L : List (Bool × Option String)) (hne : L ≠ []),
      (∀ x ∈ L, x.1 = false) →
      retryList L = ⟨false, (L.getLast hne).2, L.length - 1, L.length⟩
  | [], hne, _ => absurd rfl hne
  | [(s, e)], _, h => by
    have hs : s = false := h (s, e) (by simp)
    subst hs
    simp [retryList]
  | (s, e) :: x :: rest, _, h => by
    have hs : s = false := h (s, e) (by simp)
    subst hs
    have ih := retryList_all_fail (x :: rest) (by simp)
      (fun y hy => h y (by simp [hy]))
    simp [retryList, ih, List.getLast_cons]

theorem retryList_first_success (F : List (Bool × Option String))
    (x : Bool × Option String) (rest : List (Bool × Option String))
    (hF : ∀ y ∈ F, y.1 = false) (hx : x.1 = true) :
    retryList (F ++ x :: rest) = ⟨true, x.2, F.length, F.length + 1⟩ := by
  induction F with
  | nil =>
    obtain ⟨s, e⟩ := x
    have hs : s = true := hx
    subst hs
    cases rest with
    | nil => simp [retryList]
    | cons y t => simp [retryList]
  | cons y F ih =>
    obtain ⟨sy, ey⟩ := y
    have hsy : sy = false := hF (sy, ey) (by simp)
    subst hsy
    have ihe := ih (fun y hy => hF y (by simp [hy]))
    rcases hsh : F ++ x :: rest with _ | ⟨z, t⟩
    · exact absurd hsh (by simp)
    · show retryList ((false, ey) :: (F ++ x :: rest)) = _
      rw [hsh]
      show (if false then _ else _) = _
      rw [if_neg (by simp), ← hsh, ihe]
      simp

/-- C2: for every recipient and every `maxRetries ≥ 1`: if the transport
fails on attempts 1..maxRetries-1 and succeeds on the last, the delivery
result is Success and exactly `maxRetries - 1` backoff waits occurred; if
it fails on all attempts, the result is Failure carrying the last
attempt's error detail, with exactly `maxRetries - 1` backoff waits (none
after the final attempt); and the loop stops at the first successful
attempt. -/
theorem C2_retry_policy (env : Env)
    (gen : List (String × String) → Except String (List Nat))
    (oracle : Nat → Bool × Option String) (row : Row)
    (hmr : 1 ≤ env.max_retries) :
    ((∀ i, i + 1 < env.max_retries → (oracle i).1 = false) →
        (oracle (env.max_retries - 1)).1 = true →
        (processOne env gen oracle row).result.status = "Éxito" ∧
        (processOne env gen oracle row).retrySleeps = env.max_retries - 1 ∧
        (processOne env gen oracle row).attempts = env.max_retries)
    ∧ ((∀ i, i < env.max_retries → (oracle i).1 = false) →
        (processOne env gen oracle row).result.status = "Error" ∧
        (processOne env gen oracle row).result.error
          = (oracle (env.max_retries - 1)).2 ∧
        (processOne env gen oracle row).retrySleeps = env.max_retries - 1) ∧
    (∀ j, j < env.max_retries → (oracle j).1 = true →
        (∀ i, i < j → (oracle i).1 = false) →
        (processOne env gen oracle row).attempts = j + 1 ∧
        (processOne env gen oracle row).result.status = "Éxito") := by
  obtain ⟨m, hm⟩ : ∃ m, env.max_retries = m + 1 :=
    ⟨env.max_retries - 1, by omega⟩
  refine ⟨?_, ?_, ?_⟩
  · intro hfail hsucc
    have hL : (List.range env.max_retries).map oracle
        = (List.range m).map oracle ++ (oracle m) :: [] := by
      rw [hm, List.range_succ, List.map_append]
      rfl
    have hF : ∀ y ∈ (List.range m).map oracle, y.1 = false := by
      intro y hy
      rcases List.mem_map.mp hy with ⟨i, hi, rfl⟩
      exact hfail i (by simp at hi; omega)
    have hx : (oracle m).1 = true := by
      have he : env.max_retries - 1 = m := by omega
      rwa [he] at hsucc
    have hout : retryList ((List.range env.max_retries).map oracle)
        = ⟨true, (oracle m).2, m, m + 1⟩ := by
      rw [hL]
      simpa using retryList_first_success ((List.range m).map oracle)
        (oracle m) [] hF hx
    refine ⟨?_, ?_, ?_⟩
    · show (if (retryList ((List.range env.max_retries).map oracle)).success
        then "Éxito" else "Error") = "Éxito"
      rw [hout]
      rfl
    · show (retryList ((List.range env.max_retries).map oracle)).sleeps
        = env.max_retries - 1
      rw [hout]
      show m = env.max_retries - 1
      omega
    · show (retryList ((List.range env.max_retries).map oracle)).attempts
        = env.max_retries
      rw [hout]
      show m + 1 = env.max_retries
      omega
  · intro hfail
    have hL : (List.range env.max_retries).map oracle
        = (List.range m).map oracle ++ [oracle m] := by
      rw [hm, List.range_succ, List.map_append]
      rfl
    have hne : (List.range env.max_retries).map oracle ≠ [] := by
      rw [hL]
      simp
    have hlast : ((List.range env.max_retries).map oracle).getLast hne
        = oracle m := by
      simp only [hL]
      exact List.getLast_append_singleton _
    have hf' : ∀ x ∈ (List.range env.max_retries).map oracle, x.1 = false := by
      intro y hy
      rcases List.mem_map.mp hy with ⟨i, hi, rfl⟩
      exact hfail i (by simpa using hi)
    have hout := retryList_all_fail _ hne hf'
    rw [hlast] at hout
    have hlen : ((List.range env.max_retries).map oracle).length
        = env.max_retries := by simp
    refine ⟨?_, ?_, ?_⟩
    · show (if (retryList ((List.range env.max_retries).map oracle)).success
        then "Éxito" else "Error") = "Error"
      rw [hout]
      rfl
    · show (if (retryList ((List.range env.max_retries).map oracle)).success
          then some "" else
            (retryList ((List.range env.max_retries).map oracle)).error)
        = (oracle (env.max_retries - 1)).2
      rw [hout]
      have he : env.max_retries - 1 = m := by omega
      simp [he]
    · show (retryList ((List.range env.max_retries).map oracle)).sleeps
        = env.max_retries - 1
      rw [hout]
      show ((List.range env.max_retries).map oracle).length - 1
        = env.max_retries - 1
      rw [hlen]
  · intro j hj hsucc hfail
    have h1 : List.range env.max_retries
        = List.range (j + 1)
          ++ (List.range (env.max_retries - (j + 1))).map (fun x => (j + 1) + x) := by
      conv_lhs => rw [show env.max_retries = (j + 1) + (env.max_retries - (j + 1))
        by omega]
      exact List.range_add _ _
    have hL : (List.range env.max_retries).map oracle
        = (List.range j).map oracle ++ (oracle j)
          :: ((List.range (env.max_retries - (j + 1))).map
              (fun x => (j + 1) + x)).map oracle := by
      rw [h1, List.range_succ]
      simp
    have hF : ∀ y ∈ (List.range j).map oracle, y.1 = false := by
      intro y hy
      rcases List.mem_map.mp hy with ⟨i, hi, rfl⟩
      exact hfail i (by simpa using hi)
    have hout : retryList ((List.range env.max_retries).map oracle)
        = ⟨true, (oracle j).2, j, j + 1⟩ := by
      rw [hL]
      simpa using retryList_first_success ((List.range j).map oracle)
        (oracle j) _ hF hsucc
    constructor
    · show (retryList ((List.range env.max_retries).map oracle)).attempts
        = j + 1
      rw [hout]
    · show (if (retryList ((List.range env.max_retries).map oracle)).success
        then "Éxito" else "Error") = "Éxito"
      rw [hout]
      rfl

theorem C2_retry_policy_witness :
    (processOne ⟨"F", "s", "t", 3, 0, 2⟩ (fun _ => Except.ok [])
        (fun i => (i == 2, none)) ⟨0, []⟩).result.status = "Éxito" ∧
    (processOne ⟨"F", "s", "t", 3, 0, 2⟩ (fun _ => Except.ok [])
        (fun i => (i == 2, none)) ⟨0, []⟩).retrySleeps = 2 := by
  have h := (C2_retry_policy ⟨"F", "s", "t", 3, 0, 2⟩ (fun _ => Except.ok [])
    (fun i => (i == 2, none)) ⟨0, []⟩ (by decide)).1
    (by
      intro i hi
      have hi' : i + 1 < 3 := hi
      have hne : i ≠ 2 := by omega
      simpa using hne)
    (by decide)
  exact ⟨h.1, h.2.1⟩

theorem bulkGo_results (env : Env)
    (gen : List (String × String) → Except String (List Nat))
    (transport : Nat → Nat → Bool × Option String) (total : Nat) :
    ∀ (rows : List Row) (pos : Nat) (st : BulkState),
      (bulkGo env gen transport total pos rows st).results
        = st.results ++ rows.mapIdx
            (fun i row => (processOne env gen (transport (pos + i)) row).result) := by
  intro rows
  induction rows with
  | nil => intro pos st; simp [bulkGo]
  | cons row rest ih =>
    intro pos st
    show (bulkGo env gen transport total (pos + 1) rest _).results = _
    rw [ih (pos + 1)]
    rw [List.mapIdx_cons]
    simp only [Nat.add_zero]
    rw [List.append_assoc]
    have hfg : (fun i row => (processOne env gen (transport (pos + 1 + i)) row).result)
        = (fun i row => (processOne env gen (transport (pos + (i + 1))) row).result) := by
      funext i row
      have he : pos + 1 + i = pos + (i + 1) := by omega
      rw [he]
    rw [hfg]
    simp

theorem bulkGo_counts (env : Env)
    (gen : List (String × String) → Except String (List Nat))
    (transport : Nat → Nat → Bool × Option String) (total : Nat) :
    ∀ (rows : List Row) (pos : Nat) (st : BulkState),
      (bulkGo env gen transport total pos rows st).success_count
        + (bulkGo env gen transport total pos rows st).failed_count
        = st.success_count + st.failed_count + rows.length := by
  intro rows
  induction rows with
  | nil => intro pos st; simp [bulkGo]
  | cons row rest ih =>
    intro pos st
    show (bulkGo env gen transport total (pos + 1) rest _).success_count
      + (bulkGo env gen transport total (pos + 1) rest _).failed_count = _
    rw [ih (pos + 1)]
    by_cases hs : (processOne env gen (transport pos) row).success <;>
      simp [hs] <;> omega

/-- C1: `send_bulk_emails` appends exactly one delivery result to the
ledger per processed recipient, in iteration order (the new ledger suffix
is the per-recipient results, position by position), and the returned
summary satisfies `success + failed = total` and
`total = number of recipients processed` (after the preview-mode
truncation, which is part of processing). -/
theorem C1_ledger_and_counts (env : Env)
    (gen : List (String × String) → Except String (List Nat))
    (transport : Nat → Nat → Bool × Option String)
    (df : List Row) (preview_mode : Bool) (results0 : List DeliveryResult) :
    (send_bulk_emails env gen transport df preview_mode results0).2.results
      = results0 ++ (if preview_mode then df.take 1 else df).mapIdx
          (fun i row => (processOne env gen (transport i) row).result) ∧
    (send_bulk_emails env gen transport df preview_mode results0).1.success
        + (send_bulk_emails env gen transport df preview_mode results0).1.failed
      = (send_bulk_emails env gen transport df preview_mode results0).1.total ∧
    (send_bulk_emails env gen transport df preview_mode results0).1.total
      = (if preview_mode then df.take 1 else df).length := by
  refine ⟨?_, ?_, rfl⟩
  · simpa using bulkGo_results env gen transport
      (if preview_mode then df.take 1 else df).length
      (if preview_mode then df.take 1 else df) 0 ⟨results0, 0, 0, []⟩
  · show (bulkGo env gen transport _ 0 _ ⟨results0, 0, 0, []⟩).success_count
        + (bulkGo env gen transport _ 0 _ ⟨results0, 0, 0, []⟩).failed_count = _
    rw [bulkGo_counts env gen transport _ _ 0 ⟨results0, 0, 0, []⟩]
    simp [send_bulk_emails]

theorem bulkGo_events_mem (env : Env)
    (gen : List (String × String) → Except String (List Nat))
    (transport : Nat → Nat → Bool × Option String) (total : Nat) :
    ∀ (rows : List Row) (pos : Nat) (st : BulkState) (e : Evt),
      e ∈ (bulkGo env gen transport total pos rows st).events →
      e ∈ st.events ∨ e = Evt.retryWait 2
        ∨ e = Evt.interWait env.delay_between_emails := by
  intro rows
  induction rows with
  | nil => intro pos st e he; exact Or.inl he
  | cons row rest ih =>
    intro pos st e he
    rcases ih (pos + 1) _ e he with h | h | h
    · rcases List.mem_append.mp h with h2 | h2
      · rcases List.mem_append.mp h2 with h3 | h3
        · exact Or.inl h3
        · exact Or.inr (Or.inl (List.eq_of_mem_replicate h3))
      · by_cases hl : row.label < total - 1
        · rw [if_pos hl] at h2
          exact Or.inr (Or.inr (by simpa using h2))
        · rw [if_neg hl] at h2
          simp at h2
    · exact Or.inr (Or.inl h)
    · exact Or.inr (Or.inr h)

/-- Five-row recipient file whose rows 1 and 3 carry invalid addresses:
after `load_excel` validation filtering the surviving rows keep their
original index labels 0, 2, 4. -/
def rowsC3 : List Row :=
  [⟨0, [("email", some "a@b.com"), ("nombre", some "Ana")]⟩,
   ⟨1, [("email", some "bad"), ("nombre", some "B")]⟩,
   ⟨2, [("email", some "c@d.com"), ("nombre", some "C")]⟩,
   ⟨3, [("email", some "nope"), ("nombre", some "D")]⟩,
   ⟨4, [("email", some "e@f.org"), ("nombre", some "E")]⟩]

/-- C3: evaluation of the code at the failing input.  The filtered
sequence has 3 recipients with labels 0, 2, 4; the claim (and the spec)
demand `n - 1 = 2` inter-recipient waits, but the guard of line 337
compares the index label `idx` with `total - 1`, so only the first
recipient (label 0 < 2) is followed by a wait: exactly 1 inter-recipient
wait occurs. -/
theorem C3_inter_delay_eval :
    (load_excel_filter rowsC3).map Row.label = [0, 2, 4] ∧
    (load_excel_filter rowsC3).length = 3 ∧
    countInter (send_bulk_emails ⟨"F", "s", "t", 1, 7, 0⟩ (fun _ => Except.ok [])
        (fun _ _ => (true, none)) (load_excel_filter rowsC3) false []).2.events = 1 ∧
    (1 : Nat) ≠ (load_excel_filter rowsC3).length - 1 := by
  refine ⟨by decide, by decide, by decide, by decide⟩

/-- Configuration whose (spec-level) `retryBackoffSeconds` is 5 seconds,
with 2 send attempts. -/
def envC4 : Env := ⟨"F", "s", "t", 2, 0, 5⟩

/-- C4 counterexample: with a configured `retryBackoffSeconds` of 5 and a
transport that fails both attempts, the single backoff wait recorded by
the pipeline lasts 2 seconds (the hardcoded `time.sleep(2)` of line 319),
not the configured 5 - the claim that the pipeline waits the configured
value is false. -/
theorem C4_counterexample :
    Evt.retryWait 2 ∈ (send_bulk_emails envC4 (fun _ => Except.ok [])
        (fun _ _ => (false, some "boom"))
        [⟨0, [("email", some "a@b.com"), ("nombre", some "Ana")]⟩]
        false []).2.events ∧
    ¬ ((2 : ℚ) = envC4.retry_backoff_seconds) := by
  refine ⟨by decide, by decide⟩

/-- C4 amended: between failed send attempts the pipeline waits a fixed,
hardcoded 2 seconds - the same duration for every backoff wait of every
run (no exponential growth, no jitter); the duration is not read from the
run configuration. -/
theorem C4_backoff_hardcoded (env : Env)
    (gen : List (String × String) → Except String (List Nat))
    (transport : Nat → Nat → Bool × Option String)
    (df : List Row) (preview_mode : Bool) (results0 : List DeliveryResult)
    (q : ℚ)
    (h : Evt.retryWait q ∈
      (send_bulk_emails env gen transport df preview_mode results0).2.events) :
    q = 2 := by
  have hm := bulkGo_events_mem env gen transport _ _ 0 ⟨results0, 0, 0, []⟩ _ h
  rcases hm with h1 | h1 | h1
  · simp at h1
  · simpa using h1
  · simp at h1

theorem C4_backoff_hardcoded_witness : (2 : ℚ) = 2 :=
  C4_backoff_hardcoded envC4 (fun _ => Except.ok [])
    (fun _ _ => (false, some "boom"))
    [⟨0, [("email", some "a@b.com"), ("nombre", some "Ana")]⟩] false [] 2
    (by decide)

theorem sanitizePdfName_data (s : String) :
    (sanitizePdfName s).data
      = s.data.map (fun c =>
          if c = '/' then '_'
          else if c = '\\' then '_'
          else if c = ':' then '_' else c) := by
  show replList [':'] ['_'] (replList ['\\'] ['_'] (replList ['/'] ['_'] s.data)) = _
  rw [replList_single, replList_single, replList_single, List.map_map, List.map_map]
  apply List.map_congr_left
  intro c _
  by_cases h1 : c = '/'
  · simp [h1, Function.comp]
  · by_cases h2 : c = '\\'
    · simp [h1, h2, Function.comp]
    · by_cases h3 : c = ':'
      · simp [h1, h2, h3, Function.comp]
      · simp [h1, h2, h3, Function.comp]

theorem sanitizeNombre_data (s : String) :
    (sanitizeNombre s).data
      = s.data.map (fun c =>
          if c = ' ' then '_'
          else if c = '/' then '_'
          else if c = '\\' then '_'
          else if c = ':' then '_' else c) := by
  show replList [':'] ['_']
      (replList ['\\'] ['_'] (replList ['/'] ['_'] (replList [' '] ['_'] s.data))) = _
  rw [replList_single, replList_single, replList_single, replList_single,
    List.map_map, List.map_map, List.map_map]
  apply List.map_congr_left
  intro c _
  by_cases h0 : c = ' '
  · simp [h0, Function.comp]
  · by_cases h1 : c = '/'
    · simp [h0, h1, Function.comp]
    · by_cases h2 : c = '\\'
      · simp [h0, h1, h2, Function.comp]
      · by_cases h3 : c = ':'
        · simp [h0, h1, h2, h3, Function.comp]
        · simp [h0, h1, h2, h3, Function.comp]

/-- C5 counterexample: a row without a `nombre_pdf` field and with
`nombre = "Ana"` (and a successful generator) gets the attachment filename
`documento_Ana.pdf`, not the claimed default `documento.pdf` - the
`'documento'` default of line 289 is only the first segment of the
filename. -/
theorem C5_counterexample :
    (pdfStep (fun _ => Except.ok [])
        [("email", "a@b.com"), ("nombre", "Ana")]).2 = "documento_Ana.pdf" ∧
    "documento_Ana.pdf" ≠ "documento.pdf" := by
  refine ⟨by decide, by decide⟩

/-- C5 amended: the attachment filename is
`sanitized(document-title) ++ "_" ++ sanitized(name) ++ ".pdf"`, where the
characters `/`, `\` and `:` are replaced by `_` in both segments (the name
segment additionally has spaces replaced); when the document-title field is
absent its segment defaults to the literal `documento`, giving
`documento_<name>.pdf`; the literal filename `documento.pdf` is used
exactly when the PDF block fails (generator failure or missing `nombre`
key). -/
theorem C5_filename_sanitized :
    ((∀ s : String, ∀ c ∈ (sanitizePdfName s).data,
        c ≠ '/' ∧ c ≠ '\\' ∧ c ≠ ':') ∧
      (∀ s : String, ∀ c ∈ (sanitizeNombre s).data,
        c ≠ '/' ∧ c ≠ '\\' ∧ c ≠ ':')) ∧
    (∀ (gen : List (String × String) → Except String (List Nat))
        (data : List (String × String)) (b : List Nat) (nom : String),
      gen data = Except.ok b → List.lookup "nombre" data = some nom →
      (pdfStep gen data).2
        = sanitizePdfName (dictGetD data "nombre_pdf" "documento") ++ "_"
          ++ sanitizeNombre nom ++ ".pdf") ∧
    (∀ (gen : List (String × String) → Except String (List Nat))
        (data : List (String × String)) (b : List Nat) (nom : String),
      gen data = Except.ok b → List.lookup "nombre" data = some nom →
      List.lookup "nombre_pdf" data = none →
      (pdfStep gen data).2 = "documento_" ++ sanitizeNombre nom ++ ".pdf") ∧
    (∀ (gen : List (String × String) → Except String (List Nat))
        (data : List (String × String)) (m : String),
      gen data = Except.error m → (pdfStep gen data).2 = "documento.pdf") := by
  have hstep : ∀ (gen : List (String × String) → Except String (List Nat))
      (data : List (String × String)) (b : List Nat) (nom : String),
      gen data = Except.ok b → List.lookup "nombre" data = some nom →
      (pdfStep gen data).2
        = sanitizePdfName (dictGetD data "nombre_pdf" "documento") ++ "_"
          ++ sanitizeNombre nom ++ ".pdf" := by
    intro gen data b nom hok hnom
    simp [pdfStep, hok, hnom]
  refine ⟨⟨?_, ?_⟩, hstep, ?_, ?_⟩
  · intro s c hc
    rw [sanitizePdfName_data] at hc
    rcases List.mem_map.mp hc with ⟨d, _, rfl⟩
    by_cases h1 : d = '/'
    · simp [h1]
    · by_cases h2 : d = '\\'
      · simp [h1, h2]
      · by_cases h3 : d = ':'
        · simp [h1, h2, h3]
        · simp [h1, h2, h3]
  · intro s c hc
    rw [sanitizeNombre_data] at hc
    rcases List.mem_map.mp hc with ⟨d, _, rfl⟩
    by_cases h0 : d = ' '
    · simp [h0]
    · by_cases h1 : d = '/'
      · simp [h0, h1]
      · by_cases h2 : d = '\\'
        · simp [h0, h1, h2]
        · by_cases h3 : d = ':'
          · simp [h0, h1, h2, h3]
          · simp [h0, h1, h2, h3]
  · intro gen data b nom hok hnom hnone
    rw [hstep gen data b nom hok hnom]
    have hget : dictGetD data "nombre_pdf" "documento" = "documento" := by
      simp [dictGetD, hnone]
    rw [hget]
    have hdoc : sanitizePdfName "documento" ++ "_" = "documento_" := by decide
    rw [hdoc]
  · intro gen data m herr
    simp [pdfStep, herr]

/-- C5 witness, on the spec's own example strings. -/
theorem C5_filename_sanitized_witness :
    (pdfStep (fun _ => Except.ok [])
        [("nombre_pdf", "Q1/Report:Final"), ("nombre", "Jo\\Ann")]).2
      = sanitizePdfName (dictGetD
            [("nombre_pdf", "Q1/Report:Final"), ("nombre", "Jo\\Ann")]
            "nombre_pdf" "documento") ++ "_"
          ++ sanitizeNombre "Jo\\Ann" ++ ".pdf" :=
  C5_filename_sanitized.2.1 (fun _ => Except.ok [])
    [("nombre_pdf", "Q1/Report:Final"), ("nombre", "Jo\\Ann")] [] "Jo\\Ann"
    rfl (by decide)

instance tokBF_decidable (t : Tok) : Decidable (tokBF t) := by
  cases t <;> (unfold tokBF; infer_instance)

/-- C6 counterexample: the two dictionaries below hold the same bindings
(they are permutations, i.e. the same mapping filled in two insertion
orders), yet the substitution loop renders the template `{{a}}` differently
under the two iteration orders, because the value of `a` contains the
placeholder of `b`: order a-then-b yields `X`, order b-then-a leaves
`{{b}}`.  The claim that the result is independent of substitution order is
false. -/
theorem C6_counterexample :
    List.Perm [("a", "\x7b\x7bb\x7d\x7d"), ("b", "X")]
      [("b", "X"), ("a", "\x7b\x7bb\x7d\x7d")] ∧
    (render_template "F" "\x7b\x7ba\x7d\x7d"
        [("a", "\x7b\x7bb\x7d\x7d"), ("b", "X")]).1 = "X" ∧
    (render_template "F" "\x7b\x7ba\x7d\x7d"
        [("b", "X"), ("a", "\x7b\x7bb\x7d\x7d")]).1 = "\x7b\x7bb\x7d\x7d" ∧
    ¬ (render_template "F" "\x7b\x7ba\x7d\x7d"
          [("a", "\x7b\x7bb\x7d\x7d"), ("b", "X")]).1
        = (render_template "F" "\x7b\x7ba\x7d\x7d"
          [("b", "X"), ("a", "\x7b\x7bb\x7d\x7d")]).1 := by
  refine ⟨by decide, by decide, by decide, by decide⟩

/-- C6 amended: the substitution loop is order-independent on the
well-behaved fragment the spec describes ("non-overlapping literal
placeholders"): if the template decomposes into brace-free literal
segments and placeholders, and every key and every value of the mapping is
brace-free (so no substituted value contains or completes a placeholder),
then any two iteration orders of the same mapping (with distinct keys)
produce the same rendered string.  In general - when a value may contain
another field's placeholder, as in the counterexample - the order can
change the result. -/
theorem C6_order_invariance (t : String) (ts : List Tok)
    (d₁ d₂ : List (String × String))
    (htok : t.data = flatToks ts)
    (hwf : ∀ tok ∈ ts, tokBF tok)
    (hbf : ∀ kv ∈ d₁, braceFree kv.1.data ∧ braceFree kv.2.data)
    (hnd : (d₁.map Prod.fst).Nodup)
    (hperm : List.Perm d₁ d₂) :
    renderFold d₁ t = renderFold d₂ t := by
  have hbf₂ : ∀ kv ∈ d₂, braceFree kv.1.data ∧ braceFree kv.2.data :=
    fun kv hkv => hbf kv (hperm.mem_iff.mpr hkv)
  have h₁ : foldRepl d₁ t.data = flatToks (ts.map (substFold d₁)) := by
    rw [htok, foldRepl_toks d₁ ts hwf hbf, foldl_map_comm]
  have h₂ : foldRepl d₂ t.data = flatToks (ts.map (substFold d₂)) := by
    rw [htok, foldRepl_toks d₂ ts hwf hbf₂, foldl_map_comm]
  have hmap : ts.map (substFold d₁) = ts.map (substFold d₂) := by
    apply List.map_congr_left
    intro tok _
    cases tok with
    | lit s => rw [substFold_lit, substFold_lit]
    | phd k => rw [substFold_phd, substFold_phd, lookup_perm_nodup k hperm hnd]
  show (⟨foldRepl d₁ t.data⟩ : String) = ⟨foldRepl d₂ t.data⟩
  rw [h₁, h₂, hmap]

theorem C6_order_invariance_witness :
    renderFold [("name", "Ana"), ("city", "X")] "Hello \x7b\x7bname\x7d\x7d"
      = renderFold [("city", "X"), ("name", "Ana")] "Hello \x7b\x7bname\x7d\x7d" :=
  C6_order_invariance "Hello \x7b\x7bname\x7d\x7d"
    [Tok.lit "Hello ", Tok.phd "name"]
    [("name", "Ana"), ("city", "X")] [("city", "X"), ("name", "Ana")]
    (by decide) (by decide) (by decide) (by decide) (by decide)

/-- C7 counterexample: `_render_template` always injects the configured
from-name before substituting, overriding any caller-supplied binding, so
with configured from-name `B` the template `{{from_name}}` over the mapping
`from_name = A` renders to `B`, not to the field's own value `A` - and the
placeholder of a caller-absent `from_name` field would likewise not stay
unreplaced. -/
theorem C7_counterexample :
    (render_template "B" "\x7b\x7bfrom_name\x7d\x7d" [("from_name", "A")]).1
      = "B" ∧ "B" ≠ "A" := by
  refine ⟨by decide, by decide⟩

/-- C7 amended: template rendering performs literal substitution of
`{{field}}` occurrences with the field's value, except for the synthetic
`from_name` field, which is always injected from the configuration before
substitution (overriding any caller binding); fields not referenced in the
template are ignored; placeholders of absent fields other than `from_name`
are left unreplaced, with no error.  In particular
`render("Hello {{name}}", [name = Ana]) = "Hello Ana"` (for every
configured from-name), `render("{{missing}}", []) = "{{missing}}"`, an
extra unreferenced `city` field changes nothing, and for every brace-free
key `k ≠ "from_name"` the template `{{k}}` over the empty mapping renders
to itself. -/
theorem C7_render_contract :
    (∀ fn : String,
      (render_template fn "Hello \x7b\x7bname\x7d\x7d" [("name", "Ana")]).1
        = "Hello Ana") ∧
    (∀ fn : String,
      (render_template fn "\x7b\x7bmissing\x7d\x7d" []).1
        = "\x7b\x7bmissing\x7d\x7d") ∧
    (∀ fn v : String,
      (render_template fn "Hello \x7b\x7bname\x7d\x7d"
          [("name", "Ana"), ("city", v)]).1 = "Hello Ana") ∧
    (∀ fn k : String, braceFree k.data → k ≠ "from_name" →
      (render_template fn (⟨phChars k⟩ : String) []).1 = ⟨phChars k⟩) := by
  have h4 : ∀ fn k : String, braceFree k.data → k ≠ "from_name" →
      (render_template fn (⟨phChars k⟩ : String) []).1 = ⟨phChars k⟩ := by
    intro fn k hbf hk
    show (⟨replList (phChars "from_name") fn.data (phChars k)⟩ : String) = _
    have h2 : flatToks [Tok.phd k] = phChars k := by
      simp [flatToks, flatTok]
    have h1 := subst_one "from_name" fn [Tok.phd k]
      (by
        intro tok htok
        have he : tok = Tok.phd k := by simpa using htok
        subst he
        exact hbf)
      (by decide)
    rw [h2] at h1
    have h3 : ([Tok.phd k].map (substTok "from_name" fn)) = [Tok.phd k] := by
      simp [substTok, hk]
    rw [h3, h2] at h1
    exact congrArg String.mk h1
  refine ⟨?_, ?_, ?_, h4⟩
  · intro fn
    have hd : dictSet [("name", "Ana")] "from_name" fn
        = [("name", "Ana"), ("from_name", fn)] := rfl
    show renderFold (dictSet [("name", "Ana")] "from_name" fn)
        "Hello \x7b\x7bname\x7d\x7d" = "Hello Ana"
    rw [hd]
    show (⟨replList (phChars "from_name") fn.data
        (replList (phChars "name") "Ana".data
          ("Hello \x7b\x7bname\x7d\x7d").data)⟩ : String) = "Hello Ana"
    have hin : replList (phChars "name") "Ana".data
        ("Hello \x7b\x7bname\x7d\x7d").data = "Hello Ana".data := by decide
    rw [hin]
    exact congrArg String.mk (replList_no_obr _ _ _ (by decide))
  · intro fn
    have he : (⟨phChars "missing"⟩ : String) = "\x7b\x7bmissing\x7d\x7d" := by
      decide
    rw [← he]
    exact h4 fn "missing" (by decide) (by decide)
  · intro fn v
    have hd : dictSet [("name", "Ana"), ("city", v)] "from_name" fn
        = [("name", "Ana"), ("city", v), ("from_name", fn)] := rfl
    show renderFold (dictSet [("name", "Ana"), ("city", v)] "from_name" fn)
        "Hello \x7b\x7bname\x7d\x7d" = "Hello Ana"
    rw [hd]
    show (⟨replList (phChars "from_name") fn.data
        (replList (phChars "city") v.data
          (replList (phChars "name") "Ana".data
            ("Hello \x7b\x7bname\x7d\x7d").data))⟩ : String) = "Hello Ana"
    have hin : replList (phChars "name") "Ana".data
        ("Hello \x7b\x7bname\x7d\x7d").data = "Hello Ana".data := by decide
    rw [hin]
    have hcity : replList (phChars "city") v.data "Hello Ana".data
        = "Hello Ana".data := replList_no_obr _ v.data _ (by decide)
    rw [hcity]
    exact congrArg String.mk (replList_no_obr _ _ _ (by decide))

theorem C7_render_contract_witness :
    (render_template "Equipo" "Hello \x7b\x7bname\x7d\x7d" [("name", "Ana")]).1
      = "Hello Ana" ∧
    (render_template "Equipo" (⟨phChars "missing"⟩ : String) []).1
      = ⟨phChars "missing"⟩ :=
  ⟨C7_render_contract.1 "Equipo",
   C7_render_contract.2.2.2 "Equipo" "missing" (by decide) (by decide)⟩

/-- The fixed human-readable prefix each handler of `send_email` puts in
front of `str(e)`. -/
def errPrefix : ErrClass → String
  | ErrClass.noError => ""
  | ErrClass.authError => "Error de autenticación: "
  | ErrClass.transportError => "Error SMTP: "
  | ErrClass.unexpectedError => "Error inesperado: "

/-- C8: a single `send_email` call never lets an exception escape: on
success it returns `(True, None)`; on any raised exception it returns
`(False, some detail)` where the detail is the class prefix followed by the
exception message - authentication failures are caught first (AuthError),
any other SMTP protocol failure second (TransportError), anything else by
the bare `except Exception` (UnexpectedError) - and the detail string is
never empty. -/
theorem append_ne_empty_of_left (p m : String) (hp : p.length ≠ 0) :
    p ++ m ≠ "" := by
  intro hc
  have h := congrArg String.length hc
  rw [String.length_append] at h
  simp at h
  exact hp h.1

theorem C8_send_email_total (world : Except PyExc Unit) :
    (world = Except.ok () → send_email world = (true, none)) ∧
    (∀ e, world = Except.error e →
      send_email world
        = (false, some (errPrefix (classifyExc e) ++ excMsg e)) ∧
      errPrefix (classifyExc e) ++ excMsg e ≠ "" ∧
      (isAuthExc e = true → classifyExc e = ErrClass.authError) ∧
      (isAuthExc e = false → isSmtpExc e = true →
        classifyExc e = ErrClass.transportError) ∧
      (isSmtpExc e = false → classifyExc e = ErrClass.unexpectedError)) := by
  constructor
  · intro h
    subst h
    rfl
  · intro e h
    subst h
    cases e with
    | smtpAuth m =>
      exact ⟨rfl, append_ne_empty_of_left
          (errPrefix (classifyExc (PyExc.smtpAuth m))) m
          (by show ("Error de autenticación: " : String).length ≠ 0; decide), fun _ => rfl,
        fun hc _ => absurd hc (by simp [isAuthExc]),
        fun hc => absurd hc (by simp [isSmtpExc])⟩
    | smtpOther m =>
      exact ⟨rfl, append_ne_empty_of_left
          (errPrefix (classifyExc (PyExc.smtpOther m))) m
          (by show ("Error SMTP: " : String).length ≠ 0; decide),
        by simp [isAuthExc], fun _ _ => rfl,
        fun hc => absurd hc (by simp [isSmtpExc])⟩
    | nonSmtp m =>
      exact ⟨rfl, append_ne_empty_of_left
          (errPrefix (classifyExc (PyExc.nonSmtp m))) m
          (by show ("Error inesperado: " : String).length ≠ 0; decide),
        by simp [isAuthExc],
        fun _ hc => absurd hc (by simp [isSmtpExc]), fun _ => rfl⟩

theorem C8_send_email_total_witness :
    send_email (Except.error (PyExc.smtpAuth "denied"))
      = (false, some ("Error de autenticación: " ++ "denied")) ∧
    send_email (Except.ok ()) = (true, none) :=
  ⟨((C8_send_email_total (Except.error (PyExc.smtpAuth "denied"))).2
      (PyExc.smtpAuth "denied") rfl).1,
   (C8_send_email_total (Except.ok ())).1 rfl⟩

/-- C9: a document-generation failure is not fatal: the recipient's sends
still happen (at least one when `maxRetries ≥ 1`), each send carries no
attachment and the fallback filename `documento.pdf`, and the delivery
status and success flag are identical to what any other generator would
have produced - the PDF outcome never by itself decides the Delivery
Result, and `processOne` is a total function, so the run continues. -/
theorem C9_pdf_failure_not_fatal (env : Env)
    (gen₁ gen₂ : List (String × String) → Except String (List Nat))
    (oracle : Nat → Bool × Option String) (row : Row) (m : String)
    (hfail : gen₁ (normalizeRow row) = Except.error m) :
    (∀ c ∈ (processOne env gen₁ oracle row).sends,
      c.pdf_data = none ∧ c.pdf_filename = "documento.pdf") ∧
    (processOne env gen₁ oracle row).result.status
      = (processOne env gen₂ oracle row).result.status ∧
    (processOne env gen₁ oracle row).success
      = (processOne env gen₂ oracle row).success ∧
    (1 ≤ env.max_retries → 1 ≤ (processOne env gen₁ oracle row).attempts) := by
  have hpdf : pdfStep gen₁ (normalizeRow row) = (none, "documento.pdf") := by
    cases hsec : List.lookup "nombre" (normalizeRow row) <;>
      simp [pdfStep, hfail, hsec]
  refine ⟨?_, rfl, rfl, ?_⟩
  · intro c hc
    have he := List.eq_of_mem_replicate hc
    subst he
    constructor
    · show (pdfStep gen₁ (normalizeRow row)).1 = none
      rw [hpdf]
    · show (pdfStep gen₁ (normalizeRow row)).2 = "documento.pdf"
      rw [hpdf]
  · intro hmr
    have hne : (List.range env.max_retries).map oracle ≠ [] := by
      have : env.max_retries ≠ 0 := by omega
      simp [this]
    exact retryList_attempts_pos _ hne

theorem C9_pdf_failure_not_fatal_witness :
    (processOne ⟨"F", "s", "t", 1, 0, 2⟩ (fun _ => Except.error "boom")
        (fun _ => (true, none)) ⟨0, [("email", some "a@b.com"),
          ("nombre", some "Ana")]⟩).result.status
      = (processOne ⟨"F", "s", "t", 1, 0, 2⟩ (fun _ => Except.ok [7])
        (fun _ => (true, none)) ⟨0, [("email", some "a@b.com"),
          ("nombre", some "Ana")]⟩).result.status ∧
    1 ≤ (processOne ⟨"F", "s", "t", 1, 0, 2⟩ (fun _ => Except.error "boom")
        (fun _ => (true, none)) ⟨0, [("email", some "a@b.com"),
          ("nombre", some "Ana")]⟩).attempts := by
  have h := C9_pdf_failure_not_fatal ⟨"F", "s", "t", 1, 0, 2⟩
    (fun _ => Except.error "boom") (fun _ => Except.ok [7])
    (fun _ => (true, none))
    ⟨0, [("email", some "a@b.com"), ("nombre", some "Ana")]⟩ "boom" rfl
  exact ⟨h.2.1, h.2.2.2 (by decide)⟩

theorem lookup_map_update (d : List (String × String)) (k v : String)
    (hc : (d.map Prod.fst).contains k = true) :
    List.lookup k (d.map (fun p => if p.1 = k then (k, v) else p)) = some v := by
  induction d with
  | nil => simp at hc
  | cons kv d ih =>
    obtain ⟨k₀, v₀⟩ := kv
    by_cases hk : k₀ = k
    · subst hk
      have hhead : List.map (fun p => if p.1 = k₀ then (k₀, v) else p)
          ((k₀, v₀) :: d)
          = (k₀, v) :: List.map (fun p => if p.1 = k₀ then (k₀, v) else p) d := by
        simp
      rw [hhead]
      simp [List.lookup]
    · have hc' : (d.map Prod.fst).contains k = true := by
        simp only [List.map_cons, List.contains_cons] at hc
        rcases Bool.or_eq_true_iff.mp hc with h | h
        · exact absurd (eq_of_beq h).symm hk
        · exact h
      have hbe : (k == k₀) = false := by
        simp
        intro he
        exact hk he.symm
      simp only [List.map_cons, if_neg hk]
      simp [List.lookup, hbe, ih hc']

theorem lookup_append_right_of_absent (d : List (String × String))
    (k v : String) (hc : (d.map Prod.fst).contains k = false) :
    List.lookup k (d ++ [(k, v)]) = some v := by
  induction d with
  | nil => simp [List.lookup]
  | cons kv d ih =>
    obtain ⟨k₀, v₀⟩ := kv
    simp only [List.map_cons, List.contains_cons, Bool.or_eq_false_iff] at hc
    have hbe : (k == k₀) = false := hc.1
    simp [List.lookup, hbe, ih hc.2]

theorem lookup_dictSet_self (d : List (String × String)) (k v : String) :
    List.lookup k (dictSet d k v) = some v := by
  unfold dictSet
  by_cases hc : (d.map Prod.fst).contains k
  · rw [if_pos hc]
    exact lookup_map_update d k v hc
  · rw [if_neg hc]
    exact lookup_append_right_of_absent d k v (by simpa using hc)

theorem lookup_dictSet_other (d : List (String × String)) (k v k' : String)
    (hne : k' ≠ k) :
    List.lookup k' (dictSet d k v) = List.lookup k' d := by
  unfold dictSet
  by_cases hc : (d.map Prod.fst).contains k
  · rw [if_pos hc]
    clear hc
    induction d with
    | nil => rfl
    | cons kv d ih =>
      obtain ⟨k₀, v₀⟩ := kv
      by_cases hk : k₀ = k
      · subst hk
        have hbe : (k' == k₀) = false := by simpa using hne
        have hhead : List.map (fun p => if p.1 = k₀ then (k₀, v) else p)
            ((k₀, v₀) :: d)
            = (k₀, v) :: List.map (fun p => if p.1 = k₀ then (k₀, v) else p) d := by
          simp
        rw [hhead]
        simp [List.lookup, hbe, ih]
      · simp only [List.map_cons, if_neg hk]
        by_cases hbe : k' = k₀
        · subst hbe
          simp [List.lookup]
        · have hbe' : (k' == k₀) = false := by simpa using hbe
          simp [List.lookup, hbe', ih]
  · rw [if_neg hc]
    clear hc
    induction d with
    | nil =>
      have hbe : (k' == k) = false := by simpa using hne
      simp [List.lookup, hbe]
    | cons kv d ih =>
      obtain ⟨k₀, v₀⟩ := kv
      by_cases hbe : k' = k₀
      · subst hbe
        simp [List.lookup]
      · have hbe' : (k' == k₀) = false := by simpa using hbe
        simp [List.lookup, hbe', ih]

/-- C10: `_render_template` mutates its caller's mapping: the dictionary
after a call is exactly the input with `from_name` bound to the configured
from-name - looking up `from_name` afterwards yields the configured value
(overwriting whatever the caller had stored there), every other key is
untouched, rendering the template `{{from_name}}` substitutes the
configured value even when the caller supplied a different one, and the
pipeline's subject render runs on the mapping returned (i.e. mutated) by
the body render. -/
theorem C10_render_mutates_data (fn t : String)
    (data : List (String × String)) :
    (render_template fn t data).2 = dictSet data "from_name" fn ∧
    List.lookup "from_name" (render_template fn t data).2 = some fn ∧
    (∀ k, k ≠ "from_name" →
      List.lookup k (render_template fn t data).2 = List.lookup k data) ∧
    (∀ w, (render_template fn "\x7b\x7bfrom_name\x7d\x7d"
        [("from_name", w)]).1 = fn) ∧
    (∀ (env : Env) (gen : List (String × String) → Except String (List Nat))
        (oracle : Nat → Bool × Option String) (row : Row),
      ∀ c ∈ (processOne env gen oracle row).sends,
        c.subject = (render_template env.from_name env.subject
          (render_template env.from_name env.email_template
            (normalizeRow row)).2).1) := by
  refine ⟨rfl, lookup_dictSet_self data "from_name" fn,
    fun k hk => lookup_dictSet_other data "from_name" fn k hk, ?_, ?_⟩
  · intro w
    show renderFold (dictSet [("from_name", w)] "from_name" fn)
        "\x7b\x7bfrom_name\x7d\x7d" = fn
    have hd : dictSet [("from_name", w)] "from_name" fn
        = [("from_name", fn)] := rfl
    rw [hd]
    show (⟨replList (phChars "from_name") fn.data
        ("\x7b\x7bfrom_name\x7d\x7d").data⟩ : String) = fn
    have hme : ("\x7b\x7bfrom_name\x7d\x7d").data = phChars "from_name" := by
      decide
    rw [hme]
    have h := replList_matched (phChars "from_name") fn.data []
      (phChars_ne_nil _)
    rw [List.append_nil, replList_nil _ _ (phChars_ne_nil _),
      List.append_nil] at h
    rw [h]
  · intro env gen oracle row c hc
    have he := List.eq_of_mem_replicate hc
    subst he
    rfl

theorem C10_render_mutates_data_witness :
    List.lookup "from_name"
        (render_template "F" "t" [("from_name", "w"), ("x", "y")]).2
      = some "F" ∧
    List.lookup "x" (render_template "F" "t" [("from_name", "w"), ("x", "y")]).2
      = List.lookup "x" [("from_name", "w"), ("x", "y")] ∧
    (render_template "F" "\x7b\x7bfrom_name\x7d\x7d" [("from_name", "w")]).1
      = "F" :=
  ⟨(C10_render_mutates_data "F" "t" [("from_name", "w"), ("x", "y")]).2.1,
   (C10_render_mutates_data "F" "t" [("from_name", "w"), ("x", "y")]).2.2.1
     "x" (by decide),
   (C10_render_mutates_data "F" "\x7b\x7bfrom_name\x7d\x7d"
     [("from_name", "w")]).2.2.2.1 "w"⟩
